import Mathlib

/-!
Shallow embedding of the gorums-ata replication interceptors
(`NewBroadcastInterceptor` and `NewSelectiveBroadcastInterceptor` from the
`interceptors` package), together with proofs of the specified properties.

The Go interceptor is a closure over a mutable deduplication cache
(`broadcastedHashes : map[string]struct{}` guarded by a mutex).  We embed one
invocation of the closure as a pure step function that takes the cache
contents before the call and returns, besides the value handed back to the
caller, the cache contents after the call and a record of the observable
actions (whether `next` was called, whether the payload was marshaled,
whether the dedup check classified the message as already broadcast, whether
the fan-out goroutine was spawned and which outbound calls it issues).

Go map iteration order is unspecified; the eviction loop in the source
deletes the first 5000 keys produced by `range` over the map.  We make that
nondeterminism explicit: the step takes an iteration-order oracle
`iter : List String → List String` and, where a claim needs it, we assume
`iter c` is a permutation of `c` (it enumerates exactly the keys of the map).
-/

namespace Interceptors

/-- ProtoPayload models the decoded protobuf payload carried by a
`gorums.Message` (`msg.GetProtoMessage()`).  `bytes` is the deterministic
serialization produced by `proto.Marshal` when it succeeds, and
`marshalFails` records whether `proto.Marshal` returns an error on this
payload (protobuf marshaling is an external collaborator; only its
byte-sequence result and its possibility of failure matter here). -/
structure ProtoPayload where
  bytes : List Nat
  marshalFails : Bool
deriving DecidableEq

/-- Message models a `*gorums.Message`: a method identifier together with the
decoded payload. -/
structure Message where
  method : String
  payload : ProtoPayload
deriving DecidableEq

/-- HandlerResult is the pair `(*gorums.Message, error)` returned by a
handler. -/
abbrev HandlerResult := Option Message × Option String

/-- Handler models `gorums.Handler`: the next stage of the interceptor
chain. -/
abbrev Handler := Message → HandlerResult

/-- OutCall records one outbound `gorums.RPCCall` issued by the fan-out
goroutine: the target node, the method name and the (cloned) payload. -/
structure OutCall where
  node : String
  callMethod : String
  payload : ProtoPayload
deriving DecidableEq

/-- StepResult collects everything observable about one invocation of the
interceptor returned by `NewBroadcastInterceptor`:
`result` is the `(resp, err)` pair returned to the caller,
`broadcastedHashes` is the dedup-cache contents after the invocation,
`nextCalls` counts the invocations of `next`,
`marshalAttempted` records whether `proto.Marshal` was called,
`alreadyBroadcasted` is the dedup classification (the source's
`alreadyBroadcasted` variable),
`broadcastSpawned` records whether the fan-out goroutine was spawned and
`broadcastCalls` lists the outbound calls that goroutine issues. -/
structure StepResult where
  result : HandlerResult
  broadcastedHashes : List String
  nextCalls : Nat
  marshalAttempted : Bool
  alreadyBroadcasted : Bool
  broadcastSpawned : Bool
  broadcastCalls : List OutCall
deriving DecidableEq

/-- insertEvict performs the critical section of the source after a fresh
fingerprint was found: `broadcastedHashes[hashStr] = struct{}{}` followed by
the size check `if len(broadcastedHashes) > 10000` and, when it fires, the
single-pass deletion of the first 5000 keys in map-iteration order (`iter`
applied to the post-insert key set). -/
def insertEvict (broadcastedHashes : List String) (hashStr : String)
    (iter : List String → List String) : List String :=
  if (hashStr :: broadcastedHashes).length > 10000 then
    (iter (hashStr :: broadcastedHashes)).drop 5000
  else
    hashStr :: broadcastedHashes

/-- broadcastInterceptorStep is one invocation of the closure returned by
`NewBroadcastInterceptor cfg method`, with the closure state
(`broadcastedHashes`) passed explicitly.  `fp` abstracts the fingerprint
`fmt.Sprintf("%x", sha256.Sum256(msgBytes)[:8])` computed from the
serialized payload (any deterministic function of the bytes); `nodes` is
`cfg.Nodes()`; `iter` is the map-iteration-order oracle used by the eviction
pass. -/
def broadcastInterceptorStep (method : String) (fp : List Nat → String)
    (nodes : List String) (broadcastedHashes : List String)
    (iter : List String → List String) (next : Handler) (msg : Message) :
    StepResult :=
  if msg.method ≠ method then
    { result := next msg, broadcastedHashes := broadcastedHashes,
      nextCalls := 1, marshalAttempted := false, alreadyBroadcasted := false,
      broadcastSpawned := false, broadcastCalls := [] }
  else if msg.payload.marshalFails then
    { result := next msg, broadcastedHashes := broadcastedHashes,
      nextCalls := 1, marshalAttempted := true, alreadyBroadcasted := false,
      broadcastSpawned := false, broadcastCalls := [] }
  else if fp msg.payload.bytes ∈ broadcastedHashes then
    { result := next msg, broadcastedHashes := broadcastedHashes,
      nextCalls := 1, marshalAttempted := true, alreadyBroadcasted := true,
      broadcastSpawned := false, broadcastCalls := [] }
  else
    { result := next msg,
      broadcastedHashes := insertEvict broadcastedHashes (fp msg.payload.bytes) iter,
      nextCalls := 1, marshalAttempted := true, alreadyBroadcasted := false,
      broadcastSpawned := true,
      broadcastCalls :=
        List.map (fun n => { node := n, callMethod := method, payload := msg.payload }) nodes }

/-- NodeCallRecord is the per-node diagnostic of the fan-out goroutine: the
outbound call together with the error the call produced (which the source
binds to the blank identifier and discards). -/
structure NodeCallRecord where
  call : OutCall
  err : Option String
deriving DecidableEq

/-- broadcastRun models the body of the fan-out goroutine: for every node of
the configuration it issues one `gorums.RPCCall` with the cloned payload;
`outcome` gives each call's failure, if any (timeout, connection error or
remote rejection as decided by the environment). -/
def broadcastRun (nodes : List String) (method : String)
    (payload : ProtoPayload) (outcome : OutCall → Option String) :
    List NodeCallRecord :=
  List.map
    (fun n =>
      { call := { node := n, callMethod := method, payload := payload },
        err := outcome { node := n, callMethod := method, payload := payload } })
    nodes

/-- Inv describes one delivery to the interceptor instance: the message, the
map-iteration-order oracle in effect during that invocation, and the `next`
handler the transport supplies. -/
structure Inv where
  msg : Message
  iter : List String → List String
  next : Handler

/-- runSeq delivers a sequence of messages to the same interceptor instance,
threading the closure's dedup cache through the invocations; it returns the
final cache contents and the per-invocation step results. -/
def runSeq (method : String) (fp : List Nat → String) (nodes : List String) :
    List Inv → List String → List String × List StepResult
  | [], broadcastedHashes => (broadcastedHashes, [])
  | inv :: rest, broadcastedHashes =>
    let r := broadcastInterceptorStep method fp nodes broadcastedHashes
      inv.iter inv.next inv.msg
    let p := runSeq method fp nodes rest r.broadcastedHashes
    (p.1, r :: p.2)

/-- SelResult collects the observables of one invocation of the interceptor
returned by `NewSelectiveBroadcastInterceptor`: the returned pair, the count
of `next` invocations, the count of invocations of the `shouldBroadcast`
predicate (the Go `||` short-circuits, so the predicate is not evaluated
when the method check already fails), whether the fan-out goroutine was
spawned and the outbound calls it issues.  This variant keeps no dedup
cache. -/
structure SelResult where
  result : HandlerResult
  nextCalls : Nat
  predCalls : Nat
  broadcastSpawned : Bool
  broadcastCalls : List OutCall
deriving DecidableEq

/-- selectiveBroadcastInterceptorStep is one invocation of the closure
returned by `NewSelectiveBroadcastInterceptor cfg method shouldBroadcast`. -/
def selectiveBroadcastInterceptorStep (method : String)
    (shouldBroadcast : ProtoPayload → Bool) (nodes : List String)
    (next : Handler) (msg : Message) : SelResult :=
  if msg.method ≠ method then
    { result := next msg, nextCalls := 1, predCalls := 0,
      broadcastSpawned := false, broadcastCalls := [] }
  else if shouldBroadcast msg.payload = false then
    { result := next msg, nextCalls := 1, predCalls := 1,
      broadcastSpawned := false, broadcastCalls := [] }
  else
    { result := next msg, nextCalls := 1, predCalls := 1,
      broadcastSpawned := true,
      broadcastCalls :=
        List.map (fun n => { node := n, callMethod := method, payload := msg.payload }) nodes }

/-- noopHandler is a trivial next stage that returns no response and no
error. -/
def noopHandler : Handler := fun _ => (none, none)

/-- failingHandler is a next stage that always returns an error, used to
exercise the paths where the local invocation fails. -/
def failingHandler : Handler := fun _ => (none, some "local failure")

section BranchLemmas

variable (method : String) (fp : List Nat → String) (nodes : List String)
variable (broadcastedHashes : List String) (iter : List String → List String)
variable (next : Handler) (msg : Message)

/-- Branch equation: a message whose method differs from the configured one
passes straight through. -/
lemma step_not_matching (hm : msg.method ≠ method) :
    broadcastInterceptorStep method fp nodes broadcastedHashes iter next msg =
      { result := next msg, broadcastedHashes := broadcastedHashes,
        nextCalls := 1, marshalAttempted := false, alreadyBroadcasted := false,
        broadcastSpawned := false, broadcastCalls := [] } := by
  simp [broadcastInterceptorStep, hm]

/-- Branch equation: a matching message whose payload fails to marshal passes
through after the marshal attempt. -/
lemma step_marshal_fail (hm : msg.method = method)
    (hb : msg.payload.marshalFails = true) :
    broadcastInterceptorStep method fp nodes broadcastedHashes iter next msg =
      { result := next msg, broadcastedHashes := broadcastedHashes,
        nextCalls := 1, marshalAttempted := true, alreadyBroadcasted := false,
        broadcastSpawned := false, broadcastCalls := [] } := by
  simp [broadcastInterceptorStep, hm, hb]

/-- Branch equation: a matching, marshalable message whose fingerprint is
already cached is classified as already broadcast and spawns nothing. -/
lemma step_seen (hm : msg.method = method)
    (hb : msg.payload.marshalFails = false)
    (hi : fp msg.payload.bytes ∈ broadcastedHashes) :
    broadcastInterceptorStep method fp nodes broadcastedHashes iter next msg =
      { result := next msg, broadcastedHashes := broadcastedHashes,
        nextCalls := 1, marshalAttempted := true, alreadyBroadcasted := true,
        broadcastSpawned := false, broadcastCalls := [] } := by
  simp [broadcastInterceptorStep, hm, hb, hi]

/-- Branch equation: a matching, marshalable message with a fresh fingerprint
marks the cache (with possible eviction) and spawns the fan-out. -/
lemma step_fresh (hm : msg.method = method)
    (hb : msg.payload.marshalFails = false)
    (hi : fp msg.payload.bytes ∉ broadcastedHashes) :
    broadcastInterceptorStep method fp nodes broadcastedHashes iter next msg =
      { result := next msg,
        broadcastedHashes := insertEvict broadcastedHashes (fp msg.payload.bytes) iter,
        nextCalls := 1, marshalAttempted := true, alreadyBroadcasted := false,
        broadcastSpawned := true,
        broadcastCalls :=
          List.map (fun n => { node := n, callMethod := method, payload := msg.payload }) nodes } := by
  simp [broadcastInterceptorStep, hm, hb, hi]

/-- Every branch of the interceptor returns the next stage's result
verbatim. -/
lemma step_result :
    (broadcastInterceptorStep method fp nodes broadcastedHashes iter next msg).result
      = next msg := by
  unfold broadcastInterceptorStep
  split
  · rfl
  · split
    · rfl
    · split <;> rfl

/-- Every branch of the interceptor calls the next stage exactly once. -/
lemma step_nextCalls :
    (broadcastInterceptorStep method fp nodes broadcastedHashes iter next msg).nextCalls
      = 1 := by
  unfold broadcastInterceptorStep
  split
  · rfl
  · split
    · rfl
    · split <;> rfl

/-- The outbound calls are one per configured node exactly when the fan-out
was spawned, and none otherwise. -/
lemma step_broadcastCalls :
    (broadcastInterceptorStep method fp nodes broadcastedHashes iter next msg).broadcastCalls
      = (if (broadcastInterceptorStep method fp nodes broadcastedHashes iter next msg).broadcastSpawned
         then List.map (fun n => { node := n, callMethod := method, payload := msg.payload }) nodes
         else []) := by
  unfold broadcastInterceptorStep
  split
  · rfl
  · split
    · rfl
    · split <;> rfl

end BranchLemmas

lemma runSeq_nil (method : String) (fp : List Nat → String)
    (nodes : List String) (broadcastedHashes : List String) :
    runSeq method fp nodes [] broadcastedHashes = (broadcastedHashes, []) := rfl

lemma runSeq_cons (method : String) (fp : List Nat → String)
    (nodes : List String) (inv : Inv) (rest : List Inv)
    (broadcastedHashes : List String) :
    runSeq method fp nodes (inv :: rest) broadcastedHashes =
      ((runSeq method fp nodes rest
          (broadcastInterceptorStep method fp nodes broadcastedHashes
            inv.iter inv.next inv.msg).broadcastedHashes).1,
       broadcastInterceptorStep method fp nodes broadcastedHashes
           inv.iter inv.next inv.msg ::
         (runSeq method fp nodes rest
           (broadcastInterceptorStep method fp nodes broadcastedHashes
             inv.iter inv.next inv.msg).broadcastedHashes).2) := rfl

/-- One invocation keeps the cache within the 10000-entry bound, provided the
iteration-order oracle enumerates exactly the keys of the map. -/
lemma step_cache_le (method : String) (fp : List Nat → String)
    (nodes : List String) (broadcastedHashes : List String)
    (iter : List String → List String) (next : Handler) (msg : Message)
    (hiter : ∀ c, List.Perm (iter c) c)
    (h : broadcastedHashes.length ≤ 10000) :
    (broadcastInterceptorStep method fp nodes broadcastedHashes iter next msg).broadcastedHashes.length
      ≤ 10000 := by
  unfold broadcastInterceptorStep
  split
  · exact h
  · split
    · exact h
    · split
      · exact h
      · show (insertEvict broadcastedHashes (fp msg.payload.bytes) iter).length ≤ 10000
        unfold insertEvict
        split
        · have hlen : (iter (fp msg.payload.bytes :: broadcastedHashes)).length
              = broadcastedHashes.length + 1 := by
            simpa using (hiter (fp msg.payload.bytes :: broadcastedHashes)).length_eq
          simp only [List.length_drop, hlen]
          omega
        · rename_i hgt
          simp only [List.length_cons, not_lt] at hgt ⊢
          omega

/-- When an insertion pushes the cache from its 10000-entry high-water mark
over the bound, the eviction pass leaves exactly 5001 entries (exactly 5000
keys are deleted in one pass). -/
lemma step_evict_len (method : String) (fp : List Nat → String)
    (nodes : List String) (broadcastedHashes : List String)
    (iter : List String → List String) (next : Handler) (msg : Message)
    (hiter : ∀ c, List.Perm (iter c) c)
    (hm : msg.method = method) (hb : msg.payload.marshalFails = false)
    (hf : fp msg.payload.bytes ∉ broadcastedHashes)
    (hlen : broadcastedHashes.length = 10000) :
    (broadcastInterceptorStep method fp nodes broadcastedHashes iter next msg).broadcastedHashes.length
      = 5001 := by
  rw [step_fresh method fp nodes broadcastedHashes iter next msg hm hb hf]
  show (insertEvict broadcastedHashes (fp msg.payload.bytes) iter).length = 5001
  have hl : (iter (fp msg.payload.bytes :: broadcastedHashes)).length
      = broadcastedHashes.length + 1 := by
    simpa using (hiter (fp msg.payload.bytes :: broadcastedHashes)).length_eq
  unfold insertEvict
  rw [if_pos (by simp [hlen])]
  simp only [List.length_drop, hl, hlen]

/-- After each invocation of a run the cache respects the 10000-entry bound,
provided every invocation's iteration-order oracle enumerates the keys of
the map and the initial cache respects the bound. -/
lemma runSeq_cache_le (method : String) (fp : List Nat → String)
    (nodes : List String) (invs : List Inv)
    (broadcastedHashes : List String)
    (hiter : ∀ inv ∈ invs, ∀ c, List.Perm (inv.iter c) c)
    (h0 : broadcastedHashes.length ≤ 10000) :
    ∀ r ∈ (runSeq method fp nodes invs broadcastedHashes).2,
      r.broadcastedHashes.length ≤ 10000 := by
  induction invs generalizing broadcastedHashes with
  | nil => simp [runSeq_nil]
  | cons inv rest ih =>
    intro r hr
    rw [runSeq_cons] at hr
    have hstep := step_cache_le method fp nodes broadcastedHashes inv.iter
      inv.next inv.msg (hiter inv (by simp)) h0
    rcases List.mem_cons.mp hr with rfl | hr
    · exact hstep
    · exact ih _ (fun j hj c => hiter j (List.mem_cons_of_mem _ hj) c) hstep r hr

/-- A run in which every delivered message carries the configured method and
one fixed marshalable payload whose fingerprint is already cached classifies
every delivery as already broadcast, spawns no fan-out and leaves the cache
unchanged. -/
lemma runSeq_all_seen (method : String) (fp : List Nat → String)
    (nodes : List String) (p : ProtoPayload) (hb : p.marshalFails = false)
    (invs : List Inv) (broadcastedHashes : List String)
    (hi : fp p.bytes ∈ broadcastedHashes)
    (hmsg : ∀ inv ∈ invs, inv.msg = { method := method, payload := p }) :
    (runSeq method fp nodes invs broadcastedHashes).1 = broadcastedHashes
    ∧ (runSeq method fp nodes invs broadcastedHashes).2.map StepResult.broadcastSpawned
        = List.replicate invs.length false
    ∧ ∀ r ∈ (runSeq method fp nodes invs broadcastedHashes).2,
        r.alreadyBroadcasted = true := by
  induction invs with
  | nil => simp [runSeq_nil]
  | cons inv rest ih =>
    have hm : inv.msg = { method := method, payload := p } := hmsg inv (by simp)
    have hstep := step_seen method fp nodes broadcastedHashes inv.iter inv.next
      inv.msg (by rw [hm]) (by rw [hm]; exact hb) (by rw [hm]; exact hi)
    have ihr := ih fun j hj => hmsg j (List.mem_cons_of_mem _ hj)
    rw [runSeq_cons, hstep]
    refine ⟨by simpa using ihr.1, ?_, ?_⟩
    · simp only [List.map_cons, List.length_cons, List.replicate_succ]
      exact congrArg (List.cons false) ihr.2.1
    · intro r hr
      rcases List.mem_cons.mp hr with rfl | hr
      · rfl
      · exact ihr.2.2 r hr

/-- C1: for any nonempty sequence of messages with byte-identical serialized
payloads delivered to the same fresh broadcast-interceptor instance (all with
the configured method), exactly the first one triggers a fan-out broadcast;
every subsequent one is classified as already broadcast and spawns no
broadcast. -/
theorem broadcast_at_most_once_per_content (method : String)
    (fp : List Nat → String) (nodes : List String) (p : ProtoPayload)
    (hb : p.marshalFails = false) (invs : List Inv) (hne : invs ≠ [])
    (hmsg : ∀ inv ∈ invs, inv.msg = { method := method, payload := p }) :
    (runSeq method fp nodes invs []).2.map StepResult.broadcastSpawned
      = true :: List.replicate (invs.length - 1) false
    ∧ ∀ r ∈ ((runSeq method fp nodes invs []).2).tail,
        r.alreadyBroadcasted = true := by
  cases invs with
  | nil => exact absurd rfl hne
  | cons inv rest =>
    have hm : inv.msg = { method := method, payload := p } := hmsg inv (by simp)
    have hp : inv.msg.payload = p := by rw [hm]
    have hstep := step_fresh method fp nodes [] inv.iter inv.next inv.msg
      (by rw [hm]) (by rw [hp]; exact hb) (by simp)
    have hcache : insertEvict [] (fp p.bytes) inv.iter = [fp p.bytes] := by
      simp [insertEvict]
    have hrest := runSeq_all_seen method fp nodes p hb rest [fp p.bytes]
      (by simp) (fun j hj => hmsg j (List.mem_cons_of_mem _ hj))
    rw [runSeq_cons, hstep]
    constructor
    · show true ::
          (runSeq method fp nodes rest
            (insertEvict [] (fp inv.msg.payload.bytes) inv.iter)).2.map
              StepResult.broadcastSpawned
        = true :: List.replicate rest.length false
      rw [hp, hcache]
      exact congrArg (List.cons true) hrest.2.1
    · show ∀ r ∈ (runSeq method fp nodes rest
            (insertEvict [] (fp inv.msg.payload.bytes) inv.iter)).2,
          r.alreadyBroadcasted = true
      rw [hp, hcache]
      exact hrest.2.2

/-- C2: for every message whose method matches the configured target, the
interceptor invokes the next stage exactly once — whatever the dedup check
decides — and returns the next stage's response and error to the caller. -/
theorem next_invoked_once_per_matching_message (method : String)
    (fp : List Nat → String) (nodes : List String)
    (broadcastedHashes : List String) (iter : List String → List String)
    (next : Handler) (msg : Message) (_hm : msg.method = method) :
    (broadcastInterceptorStep method fp nodes broadcastedHashes iter next msg).nextCalls = 1
    ∧ (broadcastInterceptorStep method fp nodes broadcastedHashes iter next msg).result
        = next msg :=
  ⟨step_nextCalls method fp nodes broadcastedHashes iter next msg,
   step_result method fp nodes broadcastedHashes iter next msg⟩

/-- C3: after each invocation of a run the dedup cache holds at most 10000
entries, and when an insertion pushes occupancy from the 10000-entry mark
over the bound, the single-pass eviction leaves exactly 5001 entries (about
half the bound). -/
theorem dedup_cache_bounded (method : String) (fp : List Nat → String)
    (nodes : List String) (invs : List Inv)
    (broadcastedHashes : List String)
    (hiter : ∀ inv ∈ invs, ∀ c, List.Perm (inv.iter c) c)
    (h0 : broadcastedHashes.length ≤ 10000) :
    (∀ r ∈ (runSeq method fp nodes invs broadcastedHashes).2,
        r.broadcastedHashes.length ≤ 10000)
    ∧ (∀ (cache : List String) (iter : List String → List String)
         (next : Handler) (msg : Message),
        (∀ c, List.Perm (iter c) c) → msg.method = method →
        msg.payload.marshalFails = false → fp msg.payload.bytes ∉ cache →
        cache.length = 10000 →
        (broadcastInterceptorStep method fp nodes cache iter next msg).broadcastedHashes.length
          = 5001) :=
  ⟨runSeq_cache_le method fp nodes invs broadcastedHashes hiter h0,
   fun cache iter next msg hi hm hb hf hl =>
     step_evict_len method fp nodes cache iter next msg hi hm hb hf hl⟩

/-- C4: a message whose method differs from the configured target is passed
through unchanged: the caller gets exactly what next returns, the cache is
untouched, no marshal/fingerprint is attempted and no broadcast is
spawned. -/
theorem method_filter_passthrough (method : String) (fp : List Nat → String)
    (nodes : List String) (broadcastedHashes : List String)
    (iter : List String → List String) (next : Handler) (msg : Message)
    (hm : msg.method ≠ method) :
    broadcastInterceptorStep method fp nodes broadcastedHashes iter next msg =
      { result := next msg, broadcastedHashes := broadcastedHashes,
        nextCalls := 1, marshalAttempted := false, alreadyBroadcasted := false,
        broadcastSpawned := false, broadcastCalls := [] } :=
  step_not_matching method fp nodes broadcastedHashes iter next msg hm

/-- C6: a matching message whose payload fails to serialize degrades to
pass-through: next is invoked and its result returned, the cache is left
unchanged and no broadcast is spawned (the marshal attempt is the only
trace). -/
theorem marshal_failure_passthrough (method : String) (fp : List Nat → String)
    (nodes : List String) (broadcastedHashes : List String)
    (iter : List String → List String) (next : Handler) (msg : Message)
    (hm : msg.method = method) (hb : msg.payload.marshalFails = true) :
    broadcastInterceptorStep method fp nodes broadcastedHashes iter next msg =
      { result := next msg, broadcastedHashes := broadcastedHashes,
        nextCalls := 1, marshalAttempted := true, alreadyBroadcasted := false,
        broadcastSpawned := false, broadcastCalls := [] } :=
  step_marshal_fail method fp nodes broadcastedHashes iter next msg hm hb

/-- C9: for a first-sighting matching message the fan-out is spawned for
every next handler — in particular when the local invocation returns an
error — the cache update is independent of the local outcome, and the local
result is returned verbatim. -/
theorem broadcast_unconditional_on_local_error (method : String)
    (fp : List Nat → String) (nodes : List String)
    (broadcastedHashes : List String) (iter : List String → List String)
    (msg : Message) (next next' : Handler)
    (hm : msg.method = method) (hb : msg.payload.marshalFails = false)
    (hf : fp msg.payload.bytes ∉ broadcastedHashes) :
    (broadcastInterceptorStep method fp nodes broadcastedHashes iter next msg).broadcastSpawned
      = true
    ∧ (broadcastInterceptorStep method fp nodes broadcastedHashes iter next msg).broadcastedHashes
        = (broadcastInterceptorStep method fp nodes broadcastedHashes iter next' msg).broadcastedHashes
    ∧ (broadcastInterceptorStep method fp nodes broadcastedHashes iter next msg).result
        = next msg := by
  rw [step_fresh method fp nodes broadcastedHashes iter next msg hm hb hf,
    step_fresh method fp nodes broadcastedHashes iter next' msg hm hb hf]
  exact ⟨rfl, rfl, rfl⟩

/-- C7: the fan-out issues exactly one outbound call per configured node
whatever the per-node outcomes are; the calls issued do not depend on the
outcomes (one node's failure never suppresses another node's call); and the
interceptor's caller always receives exactly the next stage's result, so no
broadcast failure is ever surfaced. -/
theorem fanout_one_call_per_node_errors_discarded (nodes : List String)
    (m : String) (p : ProtoPayload) :
    (∀ outcome, (broadcastRun nodes m p outcome).map (fun d => d.call.node) = nodes)
    ∧ (∀ o o', (broadcastRun nodes m p o).map NodeCallRecord.call
        = (broadcastRun nodes m p o').map NodeCallRecord.call)
    ∧ (∀ (method : String) (fp : List Nat → String)
         (broadcastedHashes : List String) (iter : List String → List String)
         (next : Handler) (msg : Message),
        (broadcastInterceptorStep method fp nodes broadcastedHashes iter next msg).result
          = next msg
        ∧ (broadcastInterceptorStep method fp nodes broadcastedHashes iter next msg).broadcastCalls
            = (if (broadcastInterceptorStep method fp nodes broadcastedHashes iter next msg).broadcastSpawned
               then List.map (fun n => { node := n, callMethod := method, payload := msg.payload }) nodes
               else [])) := by
  refine ⟨?_, ?_, ?_⟩
  · intro outcome
    simp only [broadcastRun, List.map_map]
    show List.map (fun n : String => n) nodes = nodes
    simp
  · intro o o'
    simp only [broadcastRun, List.map_map]
    rfl
  · intro method fp broadcastedHashes iter next msg
    exact ⟨step_result method fp nodes broadcastedHashes iter next msg,
      step_broadcastCalls method fp nodes broadcastedHashes iter next msg⟩

/-- C8: when an insertion raises cache occupancy above 10000, the eviction
pass removes exactly the first 5000 keys in map-iteration order (leaving
5001); for some iteration orders the just-inserted fingerprint is among the
removed keys, so a message reported as a first sighting is absent from the
cache immediately afterwards and a later delivery of the identical payload
is classified as a first sighting again. -/
theorem eviction_may_evict_new_fingerprint (method : String)
    (fp : List Nat → String) (nodes : List String)
    (broadcastedHashes : List String) (next : Handler) (msg : Message)
    (hm : msg.method = method) (hb : msg.payload.marshalFails = false)
    (hf : fp msg.payload.bytes ∉ broadcastedHashes)
    (hlen : broadcastedHashes.length = 10000) :
    ∃ iter : List String → List String,
      (∀ c, List.Perm (iter c) c)
      ∧ (broadcastInterceptorStep method fp nodes broadcastedHashes iter next msg).broadcastSpawned
          = true
      ∧ (broadcastInterceptorStep method fp nodes broadcastedHashes iter next msg).broadcastedHashes
          = (iter (fp msg.payload.bytes :: broadcastedHashes)).drop 5000
      ∧ (broadcastInterceptorStep method fp nodes broadcastedHashes iter next msg).broadcastedHashes.length
          = 5001
      ∧ fp msg.payload.bytes ∉
          (broadcastInterceptorStep method fp nodes broadcastedHashes iter next msg).broadcastedHashes
      ∧ (broadcastInterceptorStep method fp nodes
          (broadcastInterceptorStep method fp nodes broadcastedHashes iter next msg).broadcastedHashes
          iter next msg).broadcastSpawned = true := by
  refine ⟨id, fun c => List.Perm.refl c, ?_⟩
  have hstep := step_fresh method fp nodes broadcastedHashes id next msg hm hb hf
  have hgt : (fp msg.payload.bytes :: broadcastedHashes).length > 10000 := by
    simp [hlen]
  have hdrop : insertEvict broadcastedHashes (fp msg.payload.bytes) id
      = (fp msg.payload.bytes :: broadcastedHashes).drop 5000 := by
    unfold insertEvict
    rw [if_pos hgt]
    rfl
  have hnotmem : fp msg.payload.bytes ∉
      (fp msg.payload.bytes :: broadcastedHashes).drop 5000 := by
    intro hmem
    exact hf (List.drop_subset 4999 broadcastedHashes
      (by simpa [List.drop_succ_cons] using hmem))
  have hlen' : ((fp msg.payload.bytes :: broadcastedHashes).drop 5000).length = 5001 := by
    simp [List.length_drop, hlen]
  refine ⟨?_, ?_, ?_, ?_, ?_⟩
  · rw [hstep]
  · rw [hstep]
    exact hdrop
  · rw [hstep]
    show (insertEvict broadcastedHashes (fp msg.payload.bytes) id).length = 5001
    rw [hdrop]
    exact hlen'
  · rw [hstep]
    show fp msg.payload.bytes ∉ insertEvict broadcastedHashes (fp msg.payload.bytes) id
    rw [hdrop]
    exact hnotmem
  · rw [hstep]
    have hfresh2 := step_fresh method fp nodes
      (insertEvict broadcastedHashes (fp msg.payload.bytes) id) id next msg hm hb
      (by rw [hdrop]; exact hnotmem)
    rw [hfresh2]

/-- C5 counterexample: in the selective variant a message whose method
differs from the configured one spawns no broadcast even though the
caller-supplied predicate returns true on its decoded payload, so
spawning is not equivalent to the predicate alone. -/
theorem selective_predicate_not_sufficient :
    (selectiveBroadcastInterceptorStep "proto.Storage.WriteRPC"
        (fun _ => true) ["node1"] noopHandler
        { method := "proto.Storage.ReadRPC",
          payload := { bytes := [7], marshalFails := false } }).broadcastSpawned
      = false
    ∧ (fun (_ : ProtoPayload) => true) { bytes := [7], marshalFails := false }
        = true := by
  exact ⟨by decide, rfl⟩

/-- C5 amended: in the selective variant the broadcast is spawned if and only
if the message's method matches the configured method AND the caller-supplied
predicate returns true on the decoded payload; no deduplication is
performed. -/
theorem selective_broadcast_iff_method_and_predicate (method : String)
    (shouldBroadcast : ProtoPayload → Bool) (nodes : List String)
    (next : Handler) (msg : Message) :
    (selectiveBroadcastInterceptorStep method shouldBroadcast nodes next msg).broadcastSpawned
      = true
    ↔ (msg.method = method ∧ shouldBroadcast msg.payload = true) := by
  unfold selectiveBroadcastInterceptorStep
  by_cases h1 : msg.method = method
  · by_cases h2 : shouldBroadcast msg.payload = true
    · simp [h1, h2]
    · simp [h1, h2]
  · simp [h1]

/-- C10: in the selective variant a message whose method differs from the
configured one short-circuits before the predicate (the predicate is never
invoked) and passes through to next unchanged, with no broadcast. -/
theorem selective_short_circuit_method_check (method : String)
    (shouldBroadcast : ProtoPayload → Bool) (nodes : List String)
    (next : Handler) (msg : Message) (hm : msg.method ≠ method) :
    selectiveBroadcastInterceptorStep method shouldBroadcast nodes next msg =
      { result := next msg, nextCalls := 1, predCalls := 0,
        broadcastSpawned := false, broadcastCalls := [] } := by
  simp [selectiveBroadcastInterceptorStep, hm]

/-- sampleMsg is a concrete matching message used by the witnesses,
mirroring the spec's `Storage.Write {key: mykey, value: myvalue}`
scenario. -/
def sampleMsg : Message :=
  { method := "proto.Storage.WriteRPC",
    payload := { bytes := [1, 2], marshalFails := false } }

/-- sampleInv is a concrete delivery of `sampleMsg` with the identity
iteration order and a trivial next stage. -/
def sampleInv : Inv := { msg := sampleMsg, iter := id, next := noopHandler }

/-- otherMsg is a concrete message whose method differs from the configured
one. -/
def otherMsg : Message :=
  { method := "proto.Storage.ReadRPC",
    payload := { bytes := [1, 2], marshalFails := false } }

/-- badMsg is a concrete matching message whose payload fails to marshal. -/
def badMsg : Message :=
  { method := "proto.Storage.WriteRPC",
    payload := { bytes := [], marshalFails := true } }

/-- Witness for C1: two deliveries of the same payload to a fresh instance
broadcast exactly once, and the second is classified as already
broadcast. -/
theorem broadcast_at_most_once_per_content_witness :
    (runSeq "proto.Storage.WriteRPC" (fun _ => "h") ["node1"]
        [sampleInv, sampleInv] []).2.map StepResult.broadcastSpawned
      = true :: List.replicate 1 false
    ∧ ∀ r ∈ ((runSeq "proto.Storage.WriteRPC" (fun _ => "h") ["node1"]
        [sampleInv, sampleInv] []).2).tail, r.alreadyBroadcasted = true :=
  broadcast_at_most_once_per_content "proto.Storage.WriteRPC"
    (fun _ => "h") ["node1"] { bytes := [1, 2], marshalFails := false } rfl
    [sampleInv, sampleInv] (by simp)
    (by intro inv hv; fin_cases hv <;> rfl)

/-- Witness for C2 at a concrete matching message. -/
theorem next_invoked_once_per_matching_message_witness :
    (broadcastInterceptorStep "proto.Storage.WriteRPC" (fun _ => "h") ["node1"]
        [] id noopHandler sampleMsg).nextCalls = 1
    ∧ (broadcastInterceptorStep "proto.Storage.WriteRPC" (fun _ => "h") ["node1"]
        [] id noopHandler sampleMsg).result = noopHandler sampleMsg :=
  next_invoked_once_per_matching_message "proto.Storage.WriteRPC" (fun _ => "h")
    ["node1"] [] id noopHandler sampleMsg rfl

/-- Witness for C3: a one-delivery run respects the bound, and a fresh
insertion into a 10000-entry cache leaves exactly 5001 entries. -/
theorem dedup_cache_bounded_witness :
    (∀ r ∈ (runSeq "proto.Storage.WriteRPC" (fun _ => "b") ["node1"]
        [sampleInv] []).2, r.broadcastedHashes.length ≤ 10000)
    ∧ (broadcastInterceptorStep "proto.Storage.WriteRPC" (fun _ => "b") ["node1"]
        (List.replicate 10000 "a") id noopHandler sampleMsg).broadcastedHashes.length
        = 5001 := by
  have h := dedup_cache_bounded "proto.Storage.WriteRPC" (fun _ => "b") ["node1"]
    [sampleInv] [] (by intro inv hv c; fin_cases hv; exact List.Perm.refl c)
    (by simp)
  exact ⟨h.1, h.2 (List.replicate 10000 "a") id noopHandler sampleMsg
    (fun c => List.Perm.refl c) rfl rfl
    (fun hmem => absurd (List.eq_of_mem_replicate hmem) (by decide))
    (List.length_replicate 10000 "a")⟩

/-- Witness for C4 at a concrete non-matching message. -/
theorem method_filter_passthrough_witness :
    broadcastInterceptorStep "proto.Storage.WriteRPC" (fun _ => "h") ["node1"]
        ["cached"] id noopHandler otherMsg =
      { result := noopHandler otherMsg, broadcastedHashes := ["cached"],
        nextCalls := 1, marshalAttempted := false, alreadyBroadcasted := false,
        broadcastSpawned := false, broadcastCalls := [] } :=
  method_filter_passthrough "proto.Storage.WriteRPC" (fun _ => "h") ["node1"]
    ["cached"] id noopHandler otherMsg (by decide)

/-- Witness for C6 at a concrete matching message whose payload fails to
marshal. -/
theorem marshal_failure_passthrough_witness :
    broadcastInterceptorStep "proto.Storage.WriteRPC" (fun _ => "h") ["node1"]
        ["cached"] id noopHandler badMsg =
      { result := noopHandler badMsg, broadcastedHashes := ["cached"],
        nextCalls := 1, marshalAttempted := true, alreadyBroadcasted := false,
        broadcastSpawned := false, broadcastCalls := [] } :=
  marshal_failure_passthrough "proto.Storage.WriteRPC" (fun _ => "h") ["node1"]
    ["cached"] id noopHandler badMsg rfl rfl

/-- Witness for C8 at a concrete 10000-entry cache and fresh fingerprint. -/
theorem eviction_may_evict_new_fingerprint_witness :
    ∃ iter : List String → List String,
      (∀ c, List.Perm (iter c) c)
      ∧ (broadcastInterceptorStep "proto.Storage.WriteRPC" (fun _ => "b") ["node1"]
          (List.replicate 10000 "a") iter noopHandler sampleMsg).broadcastSpawned = true
      ∧ (broadcastInterceptorStep "proto.Storage.WriteRPC" (fun _ => "b") ["node1"]
          (List.replicate 10000 "a") iter noopHandler sampleMsg).broadcastedHashes
          = (iter ("b" :: List.replicate 10000 "a")).drop 5000
      ∧ (broadcastInterceptorStep "proto.Storage.WriteRPC" (fun _ => "b") ["node1"]
          (List.replicate 10000 "a") iter noopHandler sampleMsg).broadcastedHashes.length
          = 5001
      ∧ "b" ∉ (broadcastInterceptorStep "proto.Storage.WriteRPC" (fun _ => "b") ["node1"]
          (List.replicate 10000 "a") iter noopHandler sampleMsg).broadcastedHashes
      ∧ (broadcastInterceptorStep "proto.Storage.WriteRPC" (fun _ => "b") ["node1"]
          (broadcastInterceptorStep "proto.Storage.WriteRPC" (fun _ => "b") ["node1"]
            (List.replicate 10000 "a") iter noopHandler sampleMsg).broadcastedHashes
          iter noopHandler sampleMsg).broadcastSpawned = true :=
  eviction_may_evict_new_fingerprint "proto.Storage.WriteRPC" (fun _ => "b")
    ["node1"] (List.replicate 10000 "a") noopHandler sampleMsg rfl rfl
    (fun hmem => absurd (List.eq_of_mem_replicate hmem) (by decide))
    (List.length_replicate 10000 "a")

/-- Witness for C9: the fan-out is spawned and the cache updated even though
the local invocation returns an error, and the error is returned verbatim. -/
theorem broadcast_unconditional_on_local_error_witness :
    (broadcastInterceptorStep "proto.Storage.WriteRPC" (fun _ => "h") ["node1"]
        [] id failingHandler sampleMsg).broadcastSpawned = true
    ∧ (broadcastInterceptorStep "proto.Storage.WriteRPC" (fun _ => "h") ["node1"]
        [] id failingHandler sampleMsg).broadcastedHashes
        = (broadcastInterceptorStep "proto.Storage.WriteRPC" (fun _ => "h") ["node1"]
            [] id noopHandler sampleMsg).broadcastedHashes
    ∧ (broadcastInterceptorStep "proto.Storage.WriteRPC" (fun _ => "h") ["node1"]
        [] id failingHandler sampleMsg).result = failingHandler sampleMsg :=
  broadcast_unconditional_on_local_error "proto.Storage.WriteRPC" (fun _ => "h")
    ["node1"] [] id sampleMsg failingHandler noopHandler rfl rfl (by simp)

/-- Witness for C10 at a concrete non-matching message and an always-true
predicate. -/
theorem selective_short_circuit_method_check_witness :
    selectiveBroadcastInterceptorStep "proto.Storage.WriteRPC" (fun _ => true)
        ["node1"] noopHandler otherMsg =
      { result := noopHandler otherMsg, nextCalls := 1, predCalls := 0,
        broadcastSpawned := false, broadcastCalls := [] } :=
  selective_short_circuit_method_check "proto.Storage.WriteRPC" (fun _ => true)
    ["node1"] noopHandler otherMsg (by decide)

end Interceptors
